import Mathlib

/-!
# Verification of the SNAP aligner core and writer layer

Shallow embedding of the parts of the SNAP short-read aligner relevant to the
specification claims: the `ScoreSet` bookkeeping of `BaseAligner` (BaseAligner.h),
the candidate-window decomposition and hash, the `seedUsed` bitmap, the
`SimpleReadWriter` watchdog and contig-boundary adjustment logic (ReadWriter.cpp),
and the FASTA line sanitisation of `ReadFASTAGenome` (FASTA.cpp).

Conventions: C `double` is modelled as `ℚ`; `_int64` quantities are modelled as
`Int`; `_uint64` arithmetic is modelled as `Nat` with explicit reduction
`% 2 ^ 64` where wraparound matters; genome locations (nonnegative `_int64`
offsets) are modelled as `Nat` where only modular decomposition is involved and
as `Int` in the writer layer.  C++ pointer equality between `Genome::Contig`
pointers is modelled by structural equality on a `Contig` record that carries a
distinguishing `id`.
-/

/-- Alignment direction (directions.h): forward strand or reverse complement. -/
inductive Direction where
  | FORWARD
  | RC
deriving DecidableEq, Repr

/-- Alignment status (AlignmentResult.h); only the constructors the writer
distinguishes are needed. -/
inductive AlignmentStatus where
  | NotFound
  | SingleHit
  | MultipleHits
deriving DecidableEq, Repr

/-- The fields of `SingleAlignmentResult` (AlignmentResult.h) that the embedded
operations read or write. -/
structure SingleAlignmentResult where
  status : AlignmentStatus
  location : Int
  origLocation : Int
  score : Int
  agScore : Int
  matchProbability : ℚ
  direction : Direction
  usedAffineGapScoring : Bool
  basesClippedBefore : Int
  basesClippedAfter : Int
  seedOffset : Int
deriving DecidableEq, Repr

/-- `BaseAligner::ScoreSet` (BaseAligner.h lines 259-329): running best-score
state together with the accumulated probability mass. -/
structure ScoreSet where
  bestScore : Int
  bestScoreGenomeLocation : Int
  bestScoreOrigGenomeLocation : Int
  bestScoreDirection : Direction
  bestScoreUsedAffineGapScoring : Bool
  bestScoreBasesClippedBefore : Int
  bestScoreBasesClippedAfter : Int
  bestScoreAGScore : Int
  bestScoreSeedOffset : Int
  bestScoreMatchProbability : ℚ
  probabilityOfAllCandidates : ℚ
  probabilityOfBestCandidate : ℚ
deriving DecidableEq, Repr

/-- `ScoreSet::updateProbabilityOfAllMatches` (BaseAligner.h lines 281-283):
`probabilityOfAllCandidates = __max(0, probabilityOfAllCandidates - oldProbability)`. -/
def ScoreSet.updateProbabilityOfAllMatches (s : ScoreSet) (oldProbability : ℚ) : ScoreSet :=
  { s with probabilityOfAllCandidates := max 0 (s.probabilityOfAllCandidates - oldProbability) }

/-- `ScoreSet::updateProbabilityOfBestMatch` (BaseAligner.h lines 284-287):
install `newProbability` as the best candidate probability and add it to the total. -/
def ScoreSet.updateProbabilityOfBestMatch (s : ScoreSet) (newProbability : ℚ) : ScoreSet :=
  { s with probabilityOfBestCandidate := newProbability,
           probabilityOfAllCandidates := s.probabilityOfAllCandidates + newProbability }

/-- `ScoreSet::updateBestScore(SingleAlignmentResult*)` (BaseAligner.h lines
308-325).  Adds the result probability to `probabilityOfAllCandidates`, then
installs the result as the new best and returns `true` exactly when
`result->agScore > bestScoreAGScore || (result->agScore == bestScoreAGScore &&
result->matchProbability > bestScoreMatchProbability)`. -/
def ScoreSet.updateBestScore (s : ScoreSet) (result : SingleAlignmentResult) :
    ScoreSet × Bool :=
  let s1 := { s with probabilityOfAllCandidates :=
                s.probabilityOfAllCandidates + result.matchProbability }
  if result.agScore > s1.bestScoreAGScore ∨
      (result.agScore = s1.bestScoreAGScore ∧
        result.matchProbability > s1.bestScoreMatchProbability) then
    ({ s1 with
        bestScore := result.score
        bestScoreAGScore := result.agScore
        bestScoreMatchProbability := result.matchProbability
        bestScoreGenomeLocation := result.location
        bestScoreOrigGenomeLocation := result.origLocation
        bestScoreDirection := result.direction
        bestScoreUsedAffineGapScoring := result.usedAffineGapScoring
        bestScoreBasesClippedBefore := result.basesClippedBefore
        bestScoreBasesClippedAfter := result.basesClippedAfter
        bestScoreSeedOffset := result.seedOffset }, true)
  else
    (s1, false)

/-- `BaseAligner::maxMergeDist` (BaseAligner.h lines 173-177): 64 when
`LONG_READS` is defined, 48 otherwise.  The `longReads` flag models the
preprocessor condition. -/
def maxMergeDist (longReads : Bool) : Nat :=
  if longReads then 64 else 48

/-- `BaseAligner::hashTableElementSize = maxMergeDist` (BaseAligner.h line 212). -/
def hashTableElementSize (longReads : Bool) : Nat :=
  maxMergeDist longReads

/-- `BaseAligner::decomposeGenomeLocation` (BaseAligner.h lines 214-220):
`lowOrder = location % hashTableElementSize`, `highOrder = location - lowOrder`.
Returned as `(highOrder, lowOrder)`. -/
def decomposeGenomeLocation (longReads : Bool) (genomeLocation : Nat) : Nat × Nat :=
  let lowOrder := genomeLocation % hashTableElementSize longReads
  (genomeLocation - lowOrder, lowOrder)

/-- `BaseAligner::hash` (BaseAligner.h lines 361-364): `key * 131` in `_uint64`
arithmetic, i.e. reduced modulo `2 ^ 64`. -/
def BaseAligner.hash (key : Nat) : Nat :=
  key * 131 % 2 ^ 64

/-- `BaseAligner::IsSeedUsed` (BaseAligner.h lines 194-196).  The byte array
`seedUsed` is modelled as a function from byte index to byte value. -/
def IsSeedUsed (seedUsed : Nat → Nat) (indexInRead : Nat) : Bool :=
  decide (seedUsed (indexInRead / 8) &&& (1 <<< (indexInRead % 8)) ≠ 0)

/-- `BaseAligner::SetSeedUsed` (BaseAligner.h lines 198-200):
`seedUsed[indexInRead / 8] |= (1 << (indexInRead % 8))`. -/
def SetSeedUsed (seedUsed : Nat → Nat) (indexInRead : Nat) : Nat → Nat :=
  fun b =>
    if b = indexInRead / 8 then seedUsed b ||| (1 <<< (indexInRead % 8))
    else seedUsed b

/-- A sequence of `SetSeedUsed` calls applied in order. -/
def applySetSeedUsed (seedUsed : Nat → Nat) (calls : List Nat) : Nat → Nat :=
  calls.foldl SetSeedUsed seedUsed

/-- The watchdog period of `SimpleReadWriter::checkIfTooSlow`
(ReadWriter.cpp line 149): 5 minutes in milliseconds. -/
def tooSlowCheckPeriod : Int := 5 * 60 * 1000

/-- The per-period minimum write count of `SimpleReadWriter::checkIfTooSlow`
(ReadWriter.cpp line 150): one write per millisecond of the period. -/
def tooSlowCheckMinReadsPerCheckPeriod : Int := 5 * 60 * 1000

/-- The mutable watchdog counters of `SimpleReadWriter`
(ReadWriter.cpp lines 80-81). -/
structure TooSlowState where
  lastTooSlowCheck : Int
  writesSinceLastTooSlowCheck : Int
deriving DecidableEq, Repr

/-- `SimpleReadWriter::checkIfTooSlow` (ReadWriter.cpp lines 146-166).
`now` stands for the value of `timeInMillis()`.  The result is `none` when the
function calls `soft_exit(1)` (terminating the process) and `some` of the
updated counters otherwise.  In the branch that starts a new check period the
counter is reset to 0 and then incremented by the trailing `writesSinceLastTooSlowCheck++`. -/
def checkIfTooSlow (killIfTooSlow : Bool) (now : Int) (st : TooSlowState) :
    Option TooSlowState :=
  if killIfTooSlow then
    if st.lastTooSlowCheck + tooSlowCheckPeriod ≤ now then
      if st.lastTooSlowCheck ≠ 0 ∧
          st.writesSinceLastTooSlowCheck < tooSlowCheckMinReadsPerCheckPeriod then
        none
      else
        some { lastTooSlowCheck := now, writesSinceLastTooSlowCheck := 0 + 1 }
    else
      some { st with writesSinceLastTooSlowCheck := st.writesSinceLastTooSlowCheck + 1 }
  else
    some st

/-- `Genome::Contig` as the writer uses it: beginning location and length.
The `id` field models C++ pointer identity of the contig object
(`getContigAtLocation` returns a pointer; two results compare equal exactly
when they denote the same contig). -/
structure Contig where
  id : Nat
  beginningLocation : Int
  length : Int
deriving DecidableEq, Repr

/-- The read-only genome interface the writer consumes:
`getContigAtLocation` and `getChromosomePadding`. -/
structure GenomeModel where
  getContigAtLocation : Int → Option Contig
  chromosomePadding : Int

/-- Sentinel genome location (`InvalidGenomeLocation`, declared outside the
provided sources).  The development only uses it as a distinguished constant;
its numeric value is immaterial to every theorem below. -/
def InvalidGenomeLocation : Int := -1

/-- The per-result mutable state of one iteration of the formatting-retry loops
in `SimpleReadWriter::writeReads` (ReadWriter.cpp lines 223-313): the alignment
result, `finalLocations[whichResult]`, `cumulativeAddFrontClipping`, the
read's additional front/back clipping, and `nAdjustments`. -/
structure WriteReadState where
  result : SingleAlignmentResult
  finalLocation : Int
  cumulativeAddFrontClipping : Int
  readFrontClipping : Int
  readBackClipping : Int
  nAdjustments : Nat
deriving DecidableEq, Repr

/-- `originalContig` as computed in both retry loops of `writeReads`
(ReadWriter.cpp lines 249-250 and 291-292): `NULL` when the result status is
`NotFound`, otherwise `genome->getContigAtLocation(results[i].location)`. -/
def originalContigOf (g : GenomeModel) (r : SingleAlignmentResult) : Option Contig :=
  if r.status = AlignmentStatus.NotFound then none
  else g.getContigAtLocation r.location

/-- `newContig` as computed in both retry loops of `writeReads`
(ReadWriter.cpp lines 251-252 and 293-294). -/
def newContigOf (g : GenomeModel) (r : SingleAlignmentResult)
    (addFrontClipping : Int) : Option Contig :=
  if r.status = AlignmentStatus.NotFound then none
  else g.getContigAtLocation (r.location + addFrontClipping)

/-- The give-up condition of the affine-gap retry loop (ReadWriter.cpp line
253): `newContig == NULL || newContig != originalContig ||
finalLocations[i] + addFrontClipping > newContig->beginningLocation +
newContig->length - genome->getChromosomePadding() || nAdjustments >
read->getDataLength()`, with the short-circuit evaluation order of C++
(the bound dereferences `newContig` only after the first disjunct failed). -/
def crossesContigBoundaryAG (g : GenomeModel) (readDataLength : Nat)
    (st : WriteReadState) (addFrontClipping : Int) (nAdjustments : Nat) : Bool :=
  match newContigOf g st.result addFrontClipping, originalContigOf g st.result with
  | none, _ => true
  | some _, none => true
  | some nc, some oc =>
    nc ≠ oc ||
      decide (st.finalLocation + addFrontClipping >
        nc.beginningLocation + nc.length - g.chromosomePadding) ||
      decide (nAdjustments > readDataLength)

/-- The give-up condition of the edit-distance retry loop (ReadWriter.cpp line
295); identical to the affine-gap one except that the boundary bound reads
`originalContig->beginningLocation + originalContig->length` (which is only
evaluated once `newContig == originalContig ≠ NULL`). -/
def crossesContigBoundaryLV (g : GenomeModel) (readDataLength : Nat)
    (st : WriteReadState) (addFrontClipping : Int) (nAdjustments : Nat) : Bool :=
  match newContigOf g st.result addFrontClipping, originalContigOf g st.result with
  | none, _ => true
  | some _, none => true
  | some nc, some oc =>
    nc ≠ oc ||
      decide (st.finalLocation + addFrontClipping >
        oc.beginningLocation + oc.length - g.chromosomePadding) ||
      decide (nAdjustments > readDataLength)

/-- The give-up assignments shared by both retry loops (ReadWriter.cpp lines
255-262 and 297-304): status `NotFound`, location `InvalidGenomeLocation`,
score `-1`, direction `FORWARD`, `finalLocations[i] = InvalidGenomeLocation`. -/
def dropReadResult (st : WriteReadState) (nAdjustments : Nat) : WriteReadState :=
  { st with
      result := { st.result with
                    status := AlignmentStatus.NotFound
                    location := InvalidGenomeLocation
                    score := -1
                    direction := Direction.FORWARD }
      finalLocation := InvalidGenomeLocation
      nAdjustments := nAdjustments }

/-- One iteration of the affine-gap formatting-retry loop of
`SimpleReadWriter::writeReads` (ReadWriter.cpp lines 239-274) for the case
`addFrontClipping != 0`: bump `nAdjustments`, give up if the adjustment would
cross a contig boundary or the loop is stuck, otherwise apply the
soft-clip/deletion adjustment. -/
def writeReadsAdjustAG (g : GenomeModel) (readDataLength : Nat)
    (st : WriteReadState) (addFrontClipping : Int) : WriteReadState :=
  let nAdjustments := st.nAdjustments + 1
  if crossesContigBoundaryAG g readDataLength st addFrontClipping nAdjustments then
    dropReadResult st nAdjustments
  else if addFrontClipping < 0 then
    let cum := st.cumulativeAddFrontClipping + addFrontClipping
    if st.result.direction = Direction.FORWARD then
      { st with cumulativeAddFrontClipping := cum
                readFrontClipping := -cum
                nAdjustments := nAdjustments }
    else
      { st with cumulativeAddFrontClipping := cum
                readBackClipping := -cum
                nAdjustments := nAdjustments }
  else
    { st with finalLocation := st.result.location + addFrontClipping
              nAdjustments := nAdjustments }

/-- One iteration of the edit-distance formatting-retry loop of
`SimpleReadWriter::writeReads` (ReadWriter.cpp lines 281-311) for the case
`addFrontClipping != 0`. -/
def writeReadsAdjustLV (g : GenomeModel) (readDataLength : Nat)
    (st : WriteReadState) (addFrontClipping : Int) : WriteReadState :=
  let nAdjustments := st.nAdjustments + 1
  if crossesContigBoundaryLV g readDataLength st addFrontClipping nAdjustments then
    dropReadResult st nAdjustments
  else
    let st1 :=
      if addFrontClipping > 0 then
        let cum := st.cumulativeAddFrontClipping + addFrontClipping
        { st with cumulativeAddFrontClipping := cum
                  readFrontClipping := cum }
      else st
    { st1 with finalLocation := st.finalLocation + addFrontClipping
               nAdjustments := nAdjustments }

/-- The `isValidGenomeCharacter` table of `ReadFASTAGenome` (FASTA.cpp lines
88-95): true exactly on the byte values of the characters A,T,C,G,N in both
cases.  Characters are modelled as byte values (`Nat`). -/
def isValidGenomeCharacter (c : Nat) : Bool :=
  c = 65 || c = 84 || c = 67 || c = 71 || c = 78 ||
  c = 97 || c = 116 || c = 99 || c = 103 || c = 110

/-- C `toupper` in the POSIX locale, on byte values: maps `a`..`z` (97..122)
down by 32, leaves everything else unchanged. -/
def toupperByte (c : Nat) : Nat :=
  if 97 ≤ c ∧ c ≤ 122 then c - 32 else c

/-- The sequence-line processing of `ReadFASTAGenome` (FASTA.cpp lines
196-213): first upper-case every character of the line, then replace every
character that is not a valid genome character by the byte value of N (78).
The resulting line is what is passed to `genome->addData`. -/
def processFASTADataLine (line : List Nat) : List Nat :=
  (line.map toupperByte).map fun c =>
    if isValidGenomeCharacter c then c else 78

/-- The inter-contig padding of `ReadFASTAGenome` (FASTA.cpp lines 120-124):
`chromosomePaddingSize` copies of the lower-case n character (110). -/
def chromosomePaddingData (chromosomePaddingSize : Nat) : List Nat :=
  List.replicate chromosomePaddingSize 110

/-- One loop iteration of `ReadFASTAGenome` (FASTA.cpp lines 131-215), seen
through the data appended to the genome: a header line (starting with the byte
value 62 of the > character) contributes a padding block, every other line
contributes its processed characters. -/
def readFASTAStep (chromosomePaddingSize : Nat) (acc line : List Nat) : List Nat :=
  match line with
  | 62 :: _ => acc ++ chromosomePaddingData chromosomePaddingSize
  | _ => acc ++ processFASTADataLine line

/-- The genome body assembled by the main loop of `ReadFASTAGenome`
(FASTA.cpp lines 131-228), restricted to the data actually appended by
`genome->addData`, with a final padding block appended after the loop
(FASTA.cpp line 228).  Lines are given without their trailing newline. -/
def readFASTAGenomeData (chromosomePaddingSize : Nat) (lines : List (List Nat)) :
    List Nat :=
  lines.foldl (readFASTAStep chromosomePaddingSize) [] ++
    chromosomePaddingData chromosomePaddingSize

/-- A concrete score set used to instantiate the `ScoreSet` theorems. -/
def sampleScoreSet : ScoreSet :=
  { bestScore := 5
    bestScoreGenomeLocation := 1000
    bestScoreOrigGenomeLocation := 1000
    bestScoreDirection := Direction.RC
    bestScoreUsedAffineGapScoring := false
    bestScoreBasesClippedBefore := 1
    bestScoreBasesClippedAfter := 2
    bestScoreAGScore := 40
    bestScoreSeedOffset := 7
    bestScoreMatchProbability := 1/2
    probabilityOfAllCandidates := 3/4
    probabilityOfBestCandidate := 1/2 }

/-- A concrete alignment result that beats `sampleScoreSet` on `agScore`. -/
def sampleWinningResult : SingleAlignmentResult :=
  { status := AlignmentStatus.SingleHit
    location := 2000
    origLocation := 1999
    score := 2
    agScore := 50
    matchProbability := 1/8
    direction := Direction.FORWARD
    usedAffineGapScoring := true
    basesClippedBefore := 0
    basesClippedAfter := 3
    seedOffset := 11 }

/-- A concrete alignment result that loses against `sampleScoreSet`
(lower `agScore`). -/
def sampleLosingResult : SingleAlignmentResult :=
  { sampleWinningResult with agScore := 30, matchProbability := 1/16 }

/-- A one-contig genome used to instantiate the writer theorems: a single
contig of length 100 at the origin, chromosome padding 5. -/
def sampleGenome : GenomeModel :=
  { getContigAtLocation := fun l =>
      if 0 ≤ l ∧ l < 100 then some { id := 0, beginningLocation := 0, length := 100 }
      else none
    chromosomePadding := 5 }

/-- A concrete writer state whose result sits inside `sampleGenome`'s contig. -/
def sampleWriteReadState : WriteReadState :=
  { result := { status := AlignmentStatus.SingleHit
                location := 50
                origLocation := 50
                score := 3
                agScore := 10
                matchProbability := 0
                direction := Direction.FORWARD
                usedAffineGapScoring := false
                basesClippedBefore := 0
                basesClippedAfter := 0
                seedOffset := 0 }
    finalLocation := 50
    cumulativeAddFrontClipping := 0
    readFrontClipping := 0
    readBackClipping := 0
    nAdjustments := 0 }

/-- C4: for every genome location R, `decomposeGenomeLocation` yields
`lowOrder = R mod W` and `highOrder = R - lowOrder` (with
`W = hashTableElementSize`), so `highOrder + lowOrder = R` and
`0 ≤ lowOrder < W`.  Stated for both compile-time variants of W. -/
theorem decomposeGenomeLocation_spec (longReads : Bool) (R : Nat) :
    (decomposeGenomeLocation longReads R).2 = R % hashTableElementSize longReads ∧
    (decomposeGenomeLocation longReads R).1 =
      R - (decomposeGenomeLocation longReads R).2 ∧
    (decomposeGenomeLocation longReads R).1 +
      (decomposeGenomeLocation longReads R).2 = R ∧
    (decomposeGenomeLocation longReads R).2 < hashTableElementSize longReads := by
  refine ⟨rfl, rfl, ?_, ?_⟩
  · exact Nat.sub_add_cancel (Nat.mod_le _ _)
  · exact Nat.mod_lt _ (by cases longReads <;> decide)

/-- C7: for every 64-bit key, `hash key` is `key * 131` reduced modulo `2 ^ 64`,
with no further mixing, and the result is a 64-bit value. -/
theorem hash_spec (key : Nat) :
    BaseAligner.hash key = key * 131 % 2 ^ 64 ∧ BaseAligner.hash key < 2 ^ 64 :=
  ⟨rfl, Nat.mod_lt _ (by norm_num)⟩

/-- C3 counterexample: in the short-read build the element window size
`maxMergeDist = hashTableElementSize` is 48, which is not a power of two, so
the claim that W is a power of two (and that the base location clears the low
log2 W bits) is false as stated. -/
theorem maxMergeDist_not_power_of_two :
    hashTableElementSize false = 48 ∧ ¬ ∃ k : Nat, hashTableElementSize false = 2 ^ k := by
  refine ⟨rfl, ?_⟩
  rintro ⟨k, hk⟩
  have h48 : (48 : Nat) = 2 ^ k := hk
  have hk6 : k < 6 := by
    by_contra h
    push_neg at h
    have h2 : (2 : Nat) ^ 6 ≤ 2 ^ k := Nat.pow_le_pow_right (by norm_num) h
    rw [← h48] at h2
    norm_num at h2
  interval_cases k <;> norm_num at h48

/-- C3 amended: `hashTableElementSize = maxMergeDist` is 48 for short reads and
64 for long reads, even and at most 64 in both builds; it is a power of two
only in the long-read build; and an element's base location is the candidate's
location minus its residue modulo W, which in the long-read build equals
clearing the low log2 64 = 6 bits. -/
theorem maxMergeDist_spec :
    maxMergeDist false = 48 ∧ maxMergeDist true = 64 ∧
    (∀ longReads, hashTableElementSize longReads = maxMergeDist longReads ∧
      maxMergeDist longReads % 2 = 0 ∧ maxMergeDist longReads ≤ 64) ∧
    (∃ k : Nat, maxMergeDist true = 2 ^ k) ∧
    (∀ longReads R, (decomposeGenomeLocation longReads R).1 =
      R - R % maxMergeDist longReads) ∧
    (∀ R : Nat, (decomposeGenomeLocation true R).1 = 2 ^ 6 * (R / 2 ^ 6)) := by
  refine ⟨rfl, rfl, ?_, ⟨6, rfl⟩, fun longReads R => rfl, ?_⟩
  · intro longReads
    cases longReads <;> exact ⟨rfl, rfl, by decide⟩
  · intro R
    have h1 : (decomposeGenomeLocation true R).1 = R - R % 64 := rfl
    have h64 : (2 : Nat) ^ 6 = 64 := by norm_num
    rw [h1, h64]
    omega

/-- C5: `updateProbabilityOfAllMatches` clamps the subtraction at zero, its
result is never negative, and `updateProbabilityOfBestMatch` with a nonnegative
probability preserves nonnegativity of `probabilityOfAllCandidates`. -/
theorem probabilityOfAllCandidates_nonneg (s : ScoreSet)
    (oldProbability newProbability : ℚ) :
    (s.updateProbabilityOfAllMatches oldProbability).probabilityOfAllCandidates =
      max 0 (s.probabilityOfAllCandidates - oldProbability) ∧
    0 ≤ (s.updateProbabilityOfAllMatches oldProbability).probabilityOfAllCandidates ∧
    (0 ≤ s.probabilityOfAllCandidates → 0 ≤ newProbability →
      0 ≤ (s.updateProbabilityOfBestMatch newProbability).probabilityOfAllCandidates) := by
  refine ⟨rfl, le_max_left _ _, fun h1 h2 => ?_⟩
  simpa [ScoreSet.updateProbabilityOfBestMatch] using add_nonneg h1 h2

/-- Witness for `probabilityOfAllCandidates_nonneg` at a concrete score set. -/
theorem probabilityOfAllCandidates_nonneg_witness :
    (sampleScoreSet.updateProbabilityOfAllMatches 1).probabilityOfAllCandidates =
      max 0 (sampleScoreSet.probabilityOfAllCandidates - 1) ∧
    0 ≤ (sampleScoreSet.updateProbabilityOfAllMatches 1).probabilityOfAllCandidates ∧
    0 ≤ (sampleScoreSet.updateProbabilityOfBestMatch (1/8)).probabilityOfAllCandidates := by
  have h := probabilityOfAllCandidates_nonneg sampleScoreSet 1 (1/8)
  exact ⟨h.1, h.2.1, h.2.2 (by norm_num [sampleScoreSet]) (by norm_num)⟩

/-- C2: `updateBestScore(SingleAlignmentResult*)` always adds the result's
match probability to `probabilityOfAllCandidates`; it returns `true` exactly
when `(agScore, matchProbability)` lexicographically strictly exceeds
`(bestScoreAGScore, bestScoreMatchProbability)`, and in that case it installs
every best-score field from the result. -/
theorem updateBestScore_spec (s : ScoreSet) (r : SingleAlignmentResult) :
    (s.updateBestScore r).1.probabilityOfAllCandidates =
      s.probabilityOfAllCandidates + r.matchProbability ∧
    ((s.updateBestScore r).2 = true ↔
      (r.agScore > s.bestScoreAGScore ∨
        (r.agScore = s.bestScoreAGScore ∧
          r.matchProbability > s.bestScoreMatchProbability))) ∧
    ((s.updateBestScore r).2 = true →
      (s.updateBestScore r).1.bestScore = r.score ∧
      (s.updateBestScore r).1.bestScoreAGScore = r.agScore ∧
      (s.updateBestScore r).1.bestScoreMatchProbability = r.matchProbability ∧
      (s.updateBestScore r).1.bestScoreGenomeLocation = r.location ∧
      (s.updateBestScore r).1.bestScoreOrigGenomeLocation = r.origLocation ∧
      (s.updateBestScore r).1.bestScoreDirection = r.direction ∧
      (s.updateBestScore r).1.bestScoreUsedAffineGapScoring = r.usedAffineGapScoring ∧
      (s.updateBestScore r).1.bestScoreBasesClippedBefore = r.basesClippedBefore ∧
      (s.updateBestScore r).1.bestScoreBasesClippedAfter = r.basesClippedAfter ∧
      (s.updateBestScore r).1.bestScoreSeedOffset = r.seedOffset) := by
  by_cases h : r.agScore > s.bestScoreAGScore ∨
      (r.agScore = s.bestScoreAGScore ∧
        r.matchProbability > s.bestScoreMatchProbability)
  · simp [ScoreSet.updateBestScore, h]
  · simp [ScoreSet.updateBestScore, h]

/-- Witness for `updateBestScore_spec` at a concrete winning update. -/
theorem updateBestScore_spec_witness :
    (sampleScoreSet.updateBestScore sampleWinningResult).1.probabilityOfAllCandidates =
      sampleScoreSet.probabilityOfAllCandidates + sampleWinningResult.matchProbability ∧
    (sampleScoreSet.updateBestScore sampleWinningResult).2 = true ∧
    (sampleScoreSet.updateBestScore sampleWinningResult).1.bestScore =
      sampleWinningResult.score := by
  have h := updateBestScore_spec sampleScoreSet sampleWinningResult
  have ht : (sampleScoreSet.updateBestScore sampleWinningResult).2 = true :=
    h.2.1.mpr (Or.inl (by norm_num [sampleScoreSet, sampleWinningResult]))
  exact ⟨h.1, ht, (h.2.2 ht).1⟩

/-- C8: when `updateBestScore(SingleAlignmentResult*)` returns `false`, every
best-score field and `probabilityOfBestCandidate` are unchanged; only
`probabilityOfAllCandidates` changes (by the added match probability). -/
theorem updateBestScore_frame (s : ScoreSet) (r : SingleAlignmentResult)
    (h : (s.updateBestScore r).2 = false) :
    (s.updateBestScore r).1.bestScore = s.bestScore ∧
    (s.updateBestScore r).1.bestScoreAGScore = s.bestScoreAGScore ∧
    (s.updateBestScore r).1.bestScoreMatchProbability = s.bestScoreMatchProbability ∧
    (s.updateBestScore r).1.bestScoreGenomeLocation = s.bestScoreGenomeLocation ∧
    (s.updateBestScore r).1.bestScoreOrigGenomeLocation = s.bestScoreOrigGenomeLocation ∧
    (s.updateBestScore r).1.bestScoreDirection = s.bestScoreDirection ∧
    (s.updateBestScore r).1.bestScoreUsedAffineGapScoring = s.bestScoreUsedAffineGapScoring ∧
    (s.updateBestScore r).1.bestScoreBasesClippedBefore = s.bestScoreBasesClippedBefore ∧
    (s.updateBestScore r).1.bestScoreBasesClippedAfter = s.bestScoreBasesClippedAfter ∧
    (s.updateBestScore r).1.bestScoreSeedOffset = s.bestScoreSeedOffset ∧
    (s.updateBestScore r).1.probabilityOfBestCandidate = s.probabilityOfBestCandidate ∧
    (s.updateBestScore r).1.probabilityOfAllCandidates =
      s.probabilityOfAllCandidates + r.matchProbability := by
  by_cases hc : r.agScore > s.bestScoreAGScore ∨
      (r.agScore = s.bestScoreAGScore ∧
        r.matchProbability > s.bestScoreMatchProbability)
  · exfalso
    rw [show (s.updateBestScore r).2 = true by simp [ScoreSet.updateBestScore, hc]] at h
    exact absurd h (by decide)
  · simp [ScoreSet.updateBestScore, hc]

/-- Witness for `updateBestScore_frame` at a concrete losing update. -/
theorem updateBestScore_frame_witness :
    (sampleScoreSet.updateBestScore sampleLosingResult).1.bestScore =
      sampleScoreSet.bestScore ∧
    (sampleScoreSet.updateBestScore sampleLosingResult).1.probabilityOfBestCandidate =
      sampleScoreSet.probabilityOfBestCandidate ∧
    (sampleScoreSet.updateBestScore sampleLosingResult).1.probabilityOfAllCandidates =
      sampleScoreSet.probabilityOfAllCandidates + sampleLosingResult.matchProbability := by
  have h := updateBestScore_frame sampleScoreSet sampleLosingResult (by decide)
  exact ⟨h.1, h.2.2.2.2.2.2.2.2.2.2.1, h.2.2.2.2.2.2.2.2.2.2.2⟩

/-- C6: `checkIfTooSlow` never terminates the process when `killIfTooSlow` is
false; with it true, it terminates exactly when a previous check period has
occurred (`lastTooSlowCheck ≠ 0`), at least five minutes have elapsed since
that check, and fewer writes than the per-period minimum happened in between;
otherwise it only updates the counters and returns. -/
theorem checkIfTooSlow_spec (now : Int) (st : TooSlowState) :
    checkIfTooSlow false now st = some st ∧
    (checkIfTooSlow true now st = none ↔
      (st.lastTooSlowCheck ≠ 0 ∧
        st.lastTooSlowCheck + tooSlowCheckPeriod ≤ now ∧
        st.writesSinceLastTooSlowCheck < tooSlowCheckMinReadsPerCheckPeriod)) ∧
    (¬ st.lastTooSlowCheck + tooSlowCheckPeriod ≤ now →
      checkIfTooSlow true now st =
        some { st with writesSinceLastTooSlowCheck :=
                 st.writesSinceLastTooSlowCheck + 1 }) ∧
    (st.lastTooSlowCheck + tooSlowCheckPeriod ≤ now →
      ¬ (st.lastTooSlowCheck ≠ 0 ∧
          st.writesSinceLastTooSlowCheck < tooSlowCheckMinReadsPerCheckPeriod) →
      checkIfTooSlow true now st =
        some { lastTooSlowCheck := now, writesSinceLastTooSlowCheck := 1 }) := by
  by_cases hp : st.lastTooSlowCheck + tooSlowCheckPeriod ≤ now
  · by_cases hk : st.lastTooSlowCheck ≠ 0 ∧
        st.writesSinceLastTooSlowCheck < tooSlowCheckMinReadsPerCheckPeriod
    · refine ⟨rfl, ?_, fun h => absurd hp h, fun _ h => absurd hk h⟩
      simp [checkIfTooSlow, hp, hk]
    · refine ⟨rfl, ?_, fun h => absurd hp h, fun _ _ => ?_⟩
      · simp [checkIfTooSlow, hp, hk]
      · simp [checkIfTooSlow, hp, hk]
  · refine ⟨rfl, ?_, fun _ => ?_, fun h => absurd h hp⟩
    · simp [checkIfTooSlow, hp]
    · simp [checkIfTooSlow, hp]

/-- Witness for `checkIfTooSlow_spec` at concrete counters: a stale check
period with too few writes terminates; with the watchdog disabled nothing
happens. -/
theorem checkIfTooSlow_spec_witness :
    checkIfTooSlow false 600000 (TooSlowState.mk 1 5) = some (TooSlowState.mk 1 5) ∧
    checkIfTooSlow true 600000 (TooSlowState.mk 1 5) = none ∧
    checkIfTooSlow true 100 (TooSlowState.mk 1 5) = some (TooSlowState.mk 1 6) := by
  have h1 := checkIfTooSlow_spec 600000 (TooSlowState.mk 1 5)
  have h2 := checkIfTooSlow_spec 100 (TooSlowState.mk 1 5)
  exact ⟨h1.1, h1.2.1.mpr ⟨by decide, by decide, by decide⟩,
    h2.2.2.1 (by decide)⟩

/-- Bit-test bridge: a masked byte is nonzero exactly when the tested bit is
set. -/
theorem and_two_pow_ne_zero_iff (x k : Nat) :
    x &&& 2 ^ k ≠ 0 ↔ x.testBit k = true := by
  constructor
  · intro h
    by_contra hb
    rw [Bool.not_eq_true] at hb
    apply h
    apply Nat.eq_of_testBit_eq
    intro i
    rw [Nat.testBit_and, Nat.zero_testBit]
    rcases eq_or_ne k i with rfl | hik
    · simp [hb]
    · simp [Nat.testBit_two_pow_of_ne hik]
  · intro h hx
    have hbit : (x &&& 2 ^ k).testBit k = true := by
      rw [Nat.testBit_and, h, Nat.testBit_two_pow_self]
      decide
    rw [hx, Nat.zero_testBit] at hbit
    exact absurd hbit (by decide)

/-- `IsSeedUsed` tests bit `indexInRead % 8` of byte `indexInRead / 8`. -/
theorem IsSeedUsed_iff (seedUsed : Nat → Nat) (i : Nat) :
    IsSeedUsed seedUsed i = true ↔
      (seedUsed (i / 8)).testBit (i % 8) = true := by
  unfold IsSeedUsed
  rw [decide_eq_true_eq, Nat.shiftLeft_eq, one_mul, and_two_pow_ne_zero_iff]

/-- Setting a seed bit makes its own test succeed. -/
theorem setSeedUsed_sets (seedUsed : Nat → Nat) (i : Nat) :
    IsSeedUsed (SetSeedUsed seedUsed i) i = true := by
  rw [IsSeedUsed_iff]
  unfold SetSeedUsed
  simp [Nat.shiftLeft_eq, Nat.testBit_or, Nat.testBit_two_pow_self]

/-- Setting a seed bit leaves every other index's test unchanged. -/
theorem setSeedUsed_frame (seedUsed : Nat → Nat) (i j : Nat) (hij : j ≠ i) :
    IsSeedUsed (SetSeedUsed seedUsed i) j = IsSeedUsed seedUsed j := by
  rw [Bool.eq_iff_iff, IsSeedUsed_iff, IsSeedUsed_iff]
  unfold SetSeedUsed
  rcases eq_or_ne (j / 8) (i / 8) with hb | hb
  · have hbit : i % 8 ≠ j % 8 := by omega
    rw [if_pos hb, hb, Nat.shiftLeft_eq, one_mul, Nat.testBit_or,
      Nat.testBit_two_pow_of_ne hbit]
    simp
  · rw [if_neg hb]

/-- A set bit survives one further `SetSeedUsed` call. -/
theorem setSeedUsed_monotone (seedUsed : Nat → Nat) (i j : Nat)
    (h : IsSeedUsed seedUsed j = true) :
    IsSeedUsed (SetSeedUsed seedUsed i) j = true := by
  rcases eq_or_ne j i with rfl | hij
  · exact setSeedUsed_sets seedUsed j
  · rw [setSeedUsed_frame seedUsed i j hij]
    exact h

/-- A set bit survives any sequence of `SetSeedUsed` calls. -/
theorem applySetSeedUsed_monotone (calls : List Nat) (seedUsed : Nat → Nat)
    (j : Nat) (h : IsSeedUsed seedUsed j = true) :
    IsSeedUsed (applySetSeedUsed seedUsed calls) j = true := by
  induction calls generalizing seedUsed with
  | nil => exact h
  | cons c cs ih => exact ih (SetSeedUsed seedUsed c) (setSeedUsed_monotone seedUsed c j h)

/-- C9: `IsSeedUsed i` holds after `SetSeedUsed i`; `SetSeedUsed i` leaves
`IsSeedUsed j` unchanged for every `j ≠ i`; and a set bit is never cleared,
so `IsSeedUsed` is monotone over any sequence of `SetSeedUsed` calls. -/
theorem seedUsed_bitmap_spec (seedUsed : Nat → Nat) (i j : Nat)
    (calls : List Nat) :
    IsSeedUsed (SetSeedUsed seedUsed i) i = true ∧
    (j ≠ i → IsSeedUsed (SetSeedUsed seedUsed i) j = IsSeedUsed seedUsed j) ∧
    (IsSeedUsed seedUsed j = true →
      IsSeedUsed (applySetSeedUsed seedUsed calls) j = true) :=
  ⟨setSeedUsed_sets seedUsed i,
   fun hij => setSeedUsed_frame seedUsed i j hij,
   fun h => applySetSeedUsed_monotone calls seedUsed j h⟩

/-- Witness for `seedUsed_bitmap_spec` on a concrete bitmap: byte value 32 has
bit 5 set, so index 5 is used and survives setting indices 3 and 9. -/
theorem seedUsed_bitmap_spec_witness :
    IsSeedUsed (SetSeedUsed (fun _ => 32) 3) 3 = true ∧
    IsSeedUsed (SetSeedUsed (fun _ => 32) 3) 5 = IsSeedUsed (fun _ => 32) 5 ∧
    IsSeedUsed (applySetSeedUsed (fun _ => 32) [3, 9]) 5 = true := by
  have h := seedUsed_bitmap_spec (fun _ => 32) 3 5 [3, 9]
  exact ⟨h.1, h.2.1 (by decide), h.2.2 (by decide)⟩

/-- `toupper` never produces a lower-case letter. -/
theorem toupperByte_not_lowercase (c : Nat) :
    ¬ (97 ≤ toupperByte c ∧ toupperByte c ≤ 122) := by
  unfold toupperByte
  split <;> omega

/-- Every character of a processed FASTA data line is one of the upper-case
bytes A, C, G, T, N. -/
theorem processFASTADataLine_mem (line : List Nat) (c : Nat)
    (hc : c ∈ processFASTADataLine line) : c ∈ [65, 67, 71, 84, 78] := by
  unfold processFASTADataLine at hc
  simp [List.mem_map] at hc
  obtain ⟨a, _, ha⟩ := hc
  by_cases hv : isValidGenomeCharacter (toupperByte a) = true
  · rw [if_pos hv] at ha
    have hnl := toupperByte_not_lowercase a
    simp [isValidGenomeCharacter] at hv
    simp only [List.mem_cons, List.not_mem_nil, or_false]
    omega
  · rw [if_neg hv] at ha
    simp [← ha]

/-- One `ReadFASTAGenome` loop step only appends upper-case bases or the
lower-case n padding. -/
theorem readFASTAStep_mem (pad : Nat) (acc line : List Nat) (c : Nat)
    (hc : c ∈ readFASTAStep pad acc line) :
    c ∈ acc ∨ c ∈ [65, 67, 71, 84, 78, 110] := by
  unfold readFASTAStep at hc
  split at hc <;> rw [List.mem_append] at hc
  · rcases hc with h | h
    · exact Or.inl h
    · simp [chromosomePaddingData] at h
      simp [h.2]
  · rcases hc with h | h
    · exact Or.inl h
    · have := processFASTADataLine_mem line c h
      simp only [List.mem_cons, List.not_mem_nil, or_false] at this ⊢
      omega

/-- The `ReadFASTAGenome` fold only ever appends upper-case bases or padding. -/
theorem readFASTA_foldl_mem (pad : Nat) (lines : List (List Nat))
    (acc : List Nat) (c : Nat)
    (hc : c ∈ lines.foldl (readFASTAStep pad) acc) :
    c ∈ acc ∨ c ∈ [65, 67, 71, 84, 78, 110] := by
  induction lines generalizing acc with
  | nil => exact Or.inl hc
  | cons l ls ih =>
    rcases ih (readFASTAStep pad acc l) hc with h | h
    · exact readFASTAStep_mem pad acc l c h
    · exact Or.inr h

/-- C10: every character of a sequence line passed to `genome->addData` has
been upper-cased and sanitised to {A,C,G,T,N}, and hence the genome body built
by `ReadFASTAGenome` contains only those bases apart from the lower-case n
padding. -/
theorem readFASTAGenome_bases_spec (pad : Nat) (lines : List (List Nat))
    (line : List Nat) (c d : Nat)
    (hc : c ∈ processFASTADataLine line)
    (hd : d ∈ readFASTAGenomeData pad lines) :
    c ∈ [65, 67, 71, 84, 78] ∧ d ∈ [65, 67, 71, 84, 78, 110] := by
  refine ⟨processFASTADataLine_mem line c hc, ?_⟩
  unfold readFASTAGenomeData at hd
  rw [List.mem_append] at hd
  rcases hd with hd | hd
  · rcases readFASTA_foldl_mem pad lines [] d hd with h | h
    · exact absurd h (List.not_mem_nil d)
    · exact h
  · simp [chromosomePaddingData] at hd
    simp [hd.2]

/-- Witness for `readFASTAGenome_bases_spec` on a small FASTA file: the line
axn becomes ANN, and a two-line file yields a body over {A,C,G,T,N,n}. -/
theorem readFASTAGenome_bases_spec_witness :
    (78 : Nat) ∈ processFASTADataLine [97, 120, 110] ∧
    (78 : Nat) ∈ [65, 67, 71, 84, 78] ∧
    (110 : Nat) ∈ readFASTAGenomeData 2 [[62, 99], [97, 116]] ∧
    (110 : Nat) ∈ [65, 67, 71, 84, 78, 110] := by
  have h := readFASTAGenome_bases_spec 2 [[62, 99], [97, 116]] [97, 120, 110]
    78 110 (by decide) (by decide)
  exact ⟨by decide, h.1, by decide, h.2⟩

/-- Under the claim's boundary condition both give-up tests fire: the test of
the affine-gap loop and the test of the edit-distance loop, which differ only
in which contig pointer the end-of-contig bound dereferences, agree whenever
the adjusted location leaves the original contig's padded interior. -/
theorem crosses_of_boundary (g : GenomeModel) (readDataLength : Nat)
    (st : WriteReadState) (addFrontClipping : Int) (nAdjustments : Nat)
    (hcross :
      newContigOf g st.result addFrontClipping = none ∨
      newContigOf g st.result addFrontClipping ≠ originalContigOf g st.result ∨
      (∃ nc, newContigOf g st.result addFrontClipping = some nc ∧
        st.finalLocation + addFrontClipping >
          nc.beginningLocation + nc.length - g.chromosomePadding)) :
    crossesContigBoundaryAG g readDataLength st addFrontClipping nAdjustments = true ∧
    crossesContigBoundaryLV g readDataLength st addFrontClipping nAdjustments = true := by
  unfold crossesContigBoundaryAG crossesContigBoundaryLV
  rcases hnew : newContigOf g st.result addFrontClipping with _ | nc
  · simp
  · rcases horig : originalContigOf g st.result with _ | oc
    · simp
    · rw [hnew, horig] at hcross
      rcases hcross with h | h | ⟨nc2, hnc2, hbound⟩
      · exact absurd h (by simp)
      · have hne : nc ≠ oc := fun he => h (by rw [he])
        simp [hne]
      · injection hnc2 with h2
        subst h2
        by_cases hco : nc = oc
        · subst hco
          simp [hbound]
        · simp [hco]

/-- C1: whenever the formatting adjustment would cross a contig boundary (no
contig at the adjusted location, a different contig than at the original
location, or an adjusted location past the contig's end minus the chromosome
padding), both the affine-gap path and the edit-distance path of
`SimpleReadWriter::writeReads` drop the candidate: status `NotFound`, location
`InvalidGenomeLocation`, score `-1`, direction `FORWARD`. -/
theorem writeReads_contig_boundary_drop (g : GenomeModel) (readDataLength : Nat)
    (st : WriteReadState) (addFrontClipping : Int)
    (hcross :
      newContigOf g st.result addFrontClipping = none ∨
      newContigOf g st.result addFrontClipping ≠ originalContigOf g st.result ∨
      (∃ nc, newContigOf g st.result addFrontClipping = some nc ∧
        st.finalLocation + addFrontClipping >
          nc.beginningLocation + nc.length - g.chromosomePadding)) :
    (writeReadsAdjustAG g readDataLength st addFrontClipping).result.status =
      AlignmentStatus.NotFound ∧
    (writeReadsAdjustAG g readDataLength st addFrontClipping).result.location =
      InvalidGenomeLocation ∧
    (writeReadsAdjustAG g readDataLength st addFrontClipping).result.score = -1 ∧
    (writeReadsAdjustAG g readDataLength st addFrontClipping).result.direction =
      Direction.FORWARD ∧
    (writeReadsAdjustAG g readDataLength st addFrontClipping).finalLocation =
      InvalidGenomeLocation ∧
    (writeReadsAdjustLV g readDataLength st addFrontClipping).result.status =
      AlignmentStatus.NotFound ∧
    (writeReadsAdjustLV g readDataLength st addFrontClipping).result.location =
      InvalidGenomeLocation ∧
    (writeReadsAdjustLV g readDataLength st addFrontClipping).result.score = -1 ∧
    (writeReadsAdjustLV g readDataLength st addFrontClipping).result.direction =
      Direction.FORWARD ∧
    (writeReadsAdjustLV g readDataLength st addFrontClipping).finalLocation =
      InvalidGenomeLocation := by
  obtain ⟨hag, hlv⟩ := crosses_of_boundary g readDataLength st addFrontClipping
    (st.nAdjustments + 1) hcross
  simp [writeReadsAdjustAG, writeReadsAdjustLV, hag, hlv, dropReadResult]

/-- Witness for `writeReads_contig_boundary_drop`: adjusting the sample result
by 100 bases leaves `sampleGenome`'s only contig, and both paths drop it. -/
theorem writeReads_contig_boundary_drop_witness :
    (writeReadsAdjustAG sampleGenome 10 sampleWriteReadState 100).result.status =
      AlignmentStatus.NotFound ∧
    (writeReadsAdjustLV sampleGenome 10 sampleWriteReadState 100).result.status =
      AlignmentStatus.NotFound ∧
    (writeReadsAdjustAG sampleGenome 10 sampleWriteReadState 100).result.score = -1 ∧
    (writeReadsAdjustLV sampleGenome 10 sampleWriteReadState 100).result.direction =
      Direction.FORWARD := by
  have h := writeReads_contig_boundary_drop sampleGenome 10 sampleWriteReadState 100
    (Or.inl (by decide))
  exact ⟨h.1, h.2.2.2.2.2.1, h.2.2.1, h.2.2.2.2.2.2.2.2.1⟩
